import Mathlib

/-!
Verification of the forza-pi-dash telemetry analytics core: the interval
(delta-time) engine, the lap/session state machine and the fuel estimator,
embedded from src/Dashboard.py and src/ParamWidgets.py.  Floating-point
values are modelled as rationals; Python lists as Lean lists.
-/

namespace ForzaPiDash

/-- Python's abs on a rational value. -/
def absQ (x : ℚ) : ℚ := if x < 0 then -x else x

/-- Python's int() truncation toward zero on a rational value. -/
def pyInt (q : ℚ) : Int := q.num / (q.den : Int)

/-- The fields of a decoded ForzaDataPacket that the analytics core reads.
is_race_on is the raw decoded integer flag (Python truthiness: nonzero means on). -/
structure Reading where
  is_race_on : Int
  lap_no : Int
  cur_lap_time : ℚ
  dist_traveled : ℚ
  last_lap_time : ℚ
  fuel : ℚ
deriving Repr, DecidableEq

/-- The mutable state of IntervalWidget (src/ParamWidgets.py) that the
lap/interval logic reads and writes. -/
structure IntervalState where
  bestLap : Option ℚ
  currentLap : Int
  syncLap : Int
  distanceFactor : ℚ
  bestLapPoints : List (ℚ × ℚ)
  currentLapPoints : List (ℚ × ℚ)
deriving Repr, DecidableEq

/-- IntervalWidget.reset / __init__ starting state. -/
def IntervalState.reset : IntervalState :=
  { bestLap := none, currentLap := -2, syncLap := -1, distanceFactor := 0,
    bestLapPoints := [], currentLapPoints := [] }

/-- IntervalWidget.insertPoint: appends currentPoint when the trace is empty,
when its distance exceeds the last stored distance, or when its distance is
negative (the source tests currentPoint[0] < 0 as an append condition). -/
def insertPoint (currentLapPoints : List (ℚ × ℚ)) (currentPoint : ℚ × ℚ) :
    List (ℚ × ℚ) :=
  match currentLapPoints.getLast? with
  | none => currentLapPoints ++ [currentPoint]
  | some lastPoint =>
      if currentPoint.1 > lastPoint.1 ∨ currentPoint.1 < 0 then
        currentLapPoints ++ [currentPoint]
      else
        currentLapPoints

/-- The while loop of IntervalWidget.updateInterval: forward scan that keeps
updating the best candidate while the current difference is less or equal to
the best difference seen, and breaks at the first strict increase. -/
def findNearestAux (currentDistance : ℚ) :
    List (ℚ × ℚ) → ℚ → Nat → Nat → Nat
  | [], _, bestPointIndex, _ => bestPointIndex
  | p :: rest, bestDifference, bestPointIndex, currentIndex =>
      if absQ (p.1 - currentDistance) ≤ bestDifference then
        findNearestAux currentDistance rest (absQ (p.1 - currentDistance))
          currentIndex (currentIndex + 1)
      else
        bestPointIndex

/-- The index selected by the scan in updateInterval, with its initial
bestDifference sentinel of 9999999999999 and initial index 0. -/
def findNearestIndex (bestLapPoints : List (ℚ × ℚ)) (currentDistance : ℚ) : Nat :=
  findNearestAux currentDistance bestLapPoints 9999999999999 0 0

/-- The interval computed by IntervalWidget.updateInterval: none when
bestLapPoints is empty (early return), otherwise current time minus the
matched best point's time. -/
def updateInterval (bestLapPoints : List (ℚ × ℚ)) (currentPoint : ℚ × ℚ) :
    Option ℚ :=
  if bestLapPoints = [] then none
  else
    let bestPoint := bestLapPoints.getD (findNearestIndex bestLapPoints currentPoint.1) (0, 0)
    some (currentPoint.2 - bestPoint.2)

/-- The sign character chosen for display: "+" by default, "-" when the
interval is negative. -/
def intervalSign (interval : ℚ) : Char := if interval < 0 then '-' else '+'

/-- The new-best-lap condition of IntervalWidget.update:
bestLap is None or bestLap <= 0 or last_lap_time < bestLap. -/
def isNewBest (bestLap : Option ℚ) (lastLapTime : ℚ) : Bool :=
  match bestLap with
  | none => true
  | some b => decide (b ≤ 0) || decide (lastLapTime < b)

/-- IntervalWidget.update: the lap state machine, acting on the analytics
state (the displayed label text is not modelled; updateInterval is pure). -/
def IntervalState.update (s : IntervalState) (fdp : Reading) : IntervalState :=
  let playerLap : Int := fdp.lap_no
  let currentLapTime := fdp.cur_lap_time
  let currentDistance := fdp.dist_traveled
  let lapDistance := currentDistance - s.distanceFactor
  let currentPoint := (lapDistance, currentLapTime)
  if playerLap = s.currentLap then
    { s with currentLapPoints := insertPoint s.currentLapPoints currentPoint }
  else if playerLap = s.currentLap + 1 then
    if currentLapTime > 1 then
      { s with currentLap := -1, currentLapPoints := [], syncLap := playerLap + 1 }
    else
      let newBest := isNewBest s.bestLap fdp.last_lap_time
      let bestLapPoints := if newBest then s.currentLapPoints else s.bestLapPoints
      let bestLap := if newBest then some fdp.last_lap_time else s.bestLap
      let distanceFactor := fdp.dist_traveled
      let newPoint := (currentDistance - distanceFactor, currentLapTime)
      { bestLap := bestLap,
        currentLap := s.currentLap + 1,
        syncLap := s.syncLap,
        distanceFactor := distanceFactor,
        bestLapPoints := bestLapPoints,
        currentLapPoints := insertPoint [] newPoint }
  else
    if playerLap = s.syncLap then
      let distanceFactor := fdp.dist_traveled
      let newPoint := (currentDistance - distanceFactor, currentLapTime)
      { s with currentLap := s.syncLap,
               distanceFactor := distanceFactor,
               currentLapPoints := insertPoint [] newPoint }
    else
      { s with syncLap := playerLap + 1 }

/-- The mutable state of FuelWidget (src/ParamWidgets.py). -/
structure FuelState where
  fuelLevelHistory : Option (List ℚ)
  lastLap : Int
deriving Repr, DecidableEq

/-- FuelWidget starting state. -/
def FuelState.reset : FuelState := { fuelLevelHistory := none, lastLap := -3 }

/-- The loop of FuelWidget.getAverageFuelUsage: for i in 1..3, accumulate the
consecutive decrease history[i-1] - history[i] when it is positive, counting
how many contributed. -/
def fuelUsageTotals (fuelLevelHistory : List ℚ) : ℚ × Nat :=
  [1, 2, 3].foldl
    (fun acc i =>
      let used := fuelLevelHistory.getD (i - 1) 0 - fuelLevelHistory.getD i 0
      if used > 0 then (acc.1 + used, acc.2 + 1) else acc)
    (0, 0)

/-- FuelWidget.getAverageFuelUsage: 0 when the accumulated total is 0,
otherwise total divided by the count of contributing laps. -/
def getAverageFuelUsage (fuelLevelHistory : List ℚ) : ℚ :=
  let t := fuelUsageTotals fuelLevelHistory
  if t.1 = 0 then 0 else t.1 / (t.2 : ℚ)

/-- The outcome of one FuelWidget.update call: the new state, the usage value,
and the laps-left value (none when the usage is zero, in which case the source
skips the laps-left update and the low-fuel signal). -/
structure FuelUpdateResult where
  state : FuelState
  usage : ℚ
  lapsLeft : Option ℚ
deriving Repr, DecidableEq

/-- FuelWidget.update: on a lap transition the history is primed with the raw
fuel fraction (first time) or shifted with int(fuel * 10000) / 100 appended;
laps left is (fuel / usage) * 100 when usage is nonzero.  The same-lap branch
reads the existing history (the source would raise if it were still None; that
unreachable-before-priming read is modelled with an empty-list default). -/
def FuelState.update (s : FuelState) (fdp : Reading) : FuelUpdateResult :=
  if fdp.lap_no ≠ s.lastLap then
    let fuelLevelHistory :=
      match s.fuelLevelHistory with
      | none => List.replicate 4 fdp.fuel
      | some h => h.drop 1 ++ [((pyInt (fdp.fuel * 10000) : ℚ)) / 100]
    let usage := getAverageFuelUsage fuelLevelHistory
    { state := { fuelLevelHistory := some fuelLevelHistory, lastLap := fdp.lap_no },
      usage := usage,
      lapsLeft := if usage ≠ 0 then some ((fdp.fuel / usage) * 100) else none }
  else
    let usage := getAverageFuelUsage (s.fuelLevelHistory.getD [])
    { state := s, usage := usage,
      lapsLeft := if usage ≠ 0 then some ((fdp.fuel / usage) * 100) else none }

/-- The analytics state owned by the dashboard's widgets. -/
structure DashboardState where
  interval : IntervalState
  fuelW : FuelState
deriving Repr, DecidableEq

/-- What one Dashboard.onCollected call produced: the (possibly unchanged)
analytics state, the value emitted on the isRacing signal, and whether the
updateSignal driving the widget updates was emitted. -/
structure CollectResult where
  state : DashboardState
  isRacingEmitted : Option Bool
  updateEmitted : Bool
deriving Repr, DecidableEq

/-- Dashboard.onCollected: always emits isRacing with bool(is_race_on);
returns before emitting updateSignal when the race is not on, so no analytics
state is touched; otherwise the update signal drives the widget updates. -/
def onCollected (st : DashboardState) (fdp : Reading) : CollectResult :=
  let isRacing := decide (fdp.is_race_on ≠ 0)
  if fdp.is_race_on = 0 then
    { state := st, isRacingEmitted := some isRacing, updateEmitted := false }
  else
    { state := { interval := st.interval.update fdp,
                 fuelW := (st.fuelW.update fdp).state },
      isRacingEmitted := some isRacing,
      updateEmitted := true }

/-- Absolute distance difference of trace point i to the query distance
(0 beyond the end of the trace). -/
def diffAt (trace : List (ℚ × ℚ)) (currentDistance : ℚ) (i : Nat) : ℚ :=
  absQ ((trace.getD i (0, 0)).1 - currentDistance)

/-- Spec-side comparator for the refinement claim: the same candidate-update
rule as findNearestAux but without the early break — a full linear scan over
the whole trace. -/
def fullScanAux (currentDistance : ℚ) :
    List (ℚ × ℚ) → ℚ → Nat → Nat → Nat
  | [], _, bestPointIndex, _ => bestPointIndex
  | p :: rest, bestDifference, bestPointIndex, currentIndex =>
      if absQ (p.1 - currentDistance) ≤ bestDifference then
        fullScanAux currentDistance rest (absQ (p.1 - currentDistance))
          currentIndex (currentIndex + 1)
      else
        fullScanAux currentDistance rest bestDifference bestPointIndex (currentIndex + 1)

/-- Spec-side full linear scan with the same sentinel initialisation. -/
def fullScanIndex (bestLapPoints : List (ℚ × ℚ)) (currentDistance : ℚ) : Nat :=
  fullScanAux currentDistance bestLapPoints 9999999999999 0 0

/-- Spec-side positive consecutive decreases of a 4-entry fuel history. -/
def posDecreases (a b c d : ℚ) : List ℚ :=
  [a - b, b - c, c - d].filter (fun used => 0 < used)

/-- Spec-side average fuel usage, phrased as the spec states it: the sum of
the positive consecutive decreases divided by their count, zero when there
are none. -/
def avgSpec (a b c d : ℚ) : ℚ :=
  if posDecreases a b c d = [] then 0
  else (posDecreases a b c d).sum / ((posDecreases a b c d).length : ℚ)

/-- The best trace of the spec's interval example. -/
def testTrace : List (ℚ × ℚ) := [(0, 0), (100, 10), (200, 20)]

/-- A reading carrying the fields the interval state machine looks at. -/
def lapReading (lap : Int) (cur dist lastT : ℚ) : Reading :=
  { is_race_on := 1, lap_no := lap, cur_lap_time := cur, dist_traveled := dist,
    last_lap_time := lastT, fuel := 1 }

/-- A two-complete-laps run: resync on lap 1, a 90 s lap, an 88 s lap and then
a 95 s lap, each with two sampled points. -/
def intervalRun : IntervalState :=
  ((((((IntervalState.reset.update (lapReading 0 5 50 0)).update
    (lapReading 1 (3/10) 100 0)).update
    (lapReading 1 10 150 0)).update
    (lapReading 2 (1/2) 200 90)).update
    (lapReading 2 40 300 90)).update
    (lapReading 3 (1/5) 400 88)).update
    (lapReading 4 (1/10) 500 95)

/-- A mid-lap interval state used to exercise the lap-boundary branches. -/
def witnessState : IntervalState :=
  { bestLap := some 90, currentLap := 2, syncLap := 1, distanceFactor := 200,
    bestLapPoints := [(0, 3/10), (50, 10)], currentLapPoints := [(0, 1/2), (100, 40)] }

/-- A reading carrying the fields the fuel estimator looks at. -/
def fuelReading (lap : Int) (fuel : ℚ) : Reading :=
  { is_race_on := 1, lap_no := lap, cur_lap_time := 0, dist_traveled := 0,
    last_lap_time := 0, fuel := fuel }

/-- The spec's fuel scenario: prime at 1.00, then lap transitions at fuel
0.90, 0.80 and 0.70. -/
def fuelRun : FuelUpdateResult :=
  let s1 := (FuelState.update FuelState.reset (fuelReading 0 1)).state
  let s2 := (s1.update (fuelReading 1 (9/10))).state
  let s3 := (s2.update (fuelReading 2 (8/10))).state
  s3.update (fuelReading 3 (7/10))

/-- A reading whose decoded is_race_on flag is zero (race off). -/
def offReading : Reading :=
  { is_race_on := 0, lap_no := 0, cur_lap_time := 0, dist_traveled := 0,
    last_lap_time := 0, fuel := 0 }

/-! ## Helper lemmas -/

lemma absQ_of_pos {x : ℚ} (h : 0 < x) : absQ x = x := by
  unfold absQ; rw [if_neg (by linarith)]

lemma absQ_of_nonpos {x : ℚ} (h : x ≤ 0) : absQ x = -x := by
  unfold absQ; split_ifs with h1 <;> linarith

lemma neg_le_absQ (x : ℚ) : -x ≤ absQ x := by
  unfold absQ; split_ifs <;> linarith

lemma diffAt_cons_zero (p : ℚ × ℚ) (l : List (ℚ × ℚ)) (q : ℚ) :
    diffAt (p :: l) q 0 = absQ (p.1 - q) := rfl

lemma diffAt_cons_succ (p : ℚ × ℚ) (l : List (ℚ × ℚ)) (q : ℚ) (k : Nat) :
    diffAt (p :: l) q (k + 1) = diffAt l q k := rfl

/-- Characterisation of the early-stop scan loop: either it answers the
incoming candidate immediately (empty suffix, or first difference above the
incoming bound), or it answers an index j whose difference prefix is
non-increasing from a first element within the bound, and which is followed by
a strict increase unless the suffix ended. -/
lemma findNearestAux_spec (q : ℚ) (l : List (ℚ × ℚ)) :
    ∀ (B : ℚ) (bi ci : Nat),
      (findNearestAux q l B bi ci = bi ∧ (l = [] ∨ B < diffAt l q 0))
      ∨ ∃ j : Nat, j < l.length ∧ findNearestAux q l B bi ci = ci + j ∧
          diffAt l q 0 ≤ B ∧
          (∀ k, k < j → diffAt l q (k + 1) ≤ diffAt l q k) ∧
          (j + 1 < l.length → diffAt l q j < diffAt l q (j + 1)) := by
  induction l with
  | nil =>
      intro B bi ci
      exact Or.inl ⟨rfl, Or.inl rfl⟩
  | cons p rest ih =>
      intro B bi ci
      by_cases hd : absQ (p.1 - q) ≤ B
      · have hstep : findNearestAux q (p :: rest) B bi ci
            = findNearestAux q rest (absQ (p.1 - q)) ci (ci + 1) := by
          simp [findNearestAux, hd]
        rcases ih (absQ (p.1 - q)) ci (ci + 1) with ⟨hres, hstop⟩ | ⟨j, hj, hres, h0, hchain, hstopj⟩
        · right
          refine ⟨0, by simp, ?_, ?_, ?_, ?_⟩
          · rw [hstep, hres]; omega
          · simpa [diffAt_cons_zero] using hd
          · intro k hk; exact absurd hk (Nat.not_lt_zero k)
          · intro h1
            have hrest : rest ≠ [] := by
              intro he
              rw [he] at h1
              simp at h1
            rcases hstop with he | hlt
            · exact absurd he hrest
            · rw [diffAt_cons_zero, diffAt_cons_succ]
              exact hlt
        · right
          refine ⟨j + 1, by simpa using hj, ?_, ?_, ?_, ?_⟩
          · rw [hstep, hres]; omega
          · simpa [diffAt_cons_zero] using hd
          · intro k hk
            cases k with
            | zero =>
                rw [diffAt_cons_succ, diffAt_cons_zero]
                exact h0
            | succ kp =>
                rw [diffAt_cons_succ, diffAt_cons_succ]
                exact hchain kp (by omega)
          · intro h1
            rw [diffAt_cons_succ, diffAt_cons_succ]
            exact hstopj (by simpa using h1)
      · left
        refine ⟨by simp [findNearestAux, hd], Or.inr ?_⟩
        rw [diffAt_cons_zero]
        exact lt_of_not_le hd

/-- Walking down a non-increasing chain: the value at j bounds every earlier
value. -/
lemma descend (f : Nat → ℚ) :
    ∀ j, (∀ k, k < j → f (k + 1) ≤ f k) → ∀ k, k ≤ j → f j ≤ f k := by
  intro j
  induction j with
  | zero =>
      intro _ k hk
      have hz : k = 0 := Nat.le_zero.mp hk
      rw [hz]
  | succ n ih =>
      intro h k hk
      rcases Nat.eq_or_lt_of_le hk with he | hlt
      · rw [he]
      · have hk1 : k ≤ n := by omega
        have h1 : f (n + 1) ≤ f n := h n (Nat.lt_succ_self n)
        have h2 := ih (fun m hm => h m (Nat.lt_succ_of_lt hm)) k hk1
        exact le_trans h1 h2

/-- Valley property of the difference sequence of a strictly increasing trace:
once a strict increase appears, every later difference is larger. -/
lemma valley (trace : List (ℚ × ℚ)) (q : ℚ)
    (hmono : ∀ i, i < trace.length → ∀ j, j < trace.length → i < j →
      (trace.getD i (0, 0)).1 < (trace.getD j (0, 0)).1)
    (i : Nat) (hi : i + 1 < trace.length)
    (hup : diffAt trace q i < diffAt trace q (i + 1)) :
    ∀ k, i < k → k < trace.length → diffAt trace q i < diffAt trace q k := by
  have hq : q < (trace.getD (i + 1) (0, 0)).1 := by
    by_contra hq
    push_neg at hq
    have h1 : (trace.getD i (0, 0)).1 < (trace.getD (i + 1) (0, 0)).1 :=
      hmono i (by omega) (i + 1) hi (by omega)
    have h2 : diffAt trace q (i + 1) = -((trace.getD (i + 1) (0, 0)).1 - q) :=
      absQ_of_nonpos (by linarith)
    have h3 : -((trace.getD i (0, 0)).1 - q) ≤ diffAt trace q i := neg_le_absQ _
    rw [h2] at hup
    linarith
  intro k hik hk
  have hk1 : (trace.getD (i + 1) (0, 0)).1 ≤ (trace.getD k (0, 0)).1 := by
    rcases Nat.lt_or_ge (i + 1) k with h | h
    · exact le_of_lt (hmono (i + 1) hi k hk h)
    · have he : k = i + 1 := by omega
      rw [he]
  have hpos1 : 0 < (trace.getD (i + 1) (0, 0)).1 - q := by linarith
  have hposk : 0 < (trace.getD k (0, 0)).1 - q := by linarith
  have e1 : diffAt trace q (i + 1) = (trace.getD (i + 1) (0, 0)).1 - q := absQ_of_pos hpos1
  have ek : diffAt trace q k = (trace.getD k (0, 0)).1 - q := absQ_of_pos hposk
  rw [e1] at hup
  rw [ek]
  linarith

/-- The full scan never moves off its candidate while every remaining
difference exceeds the current bound. -/
lemma fullScanAux_const (q : ℚ) (l : List (ℚ × ℚ)) :
    ∀ (B : ℚ) (bi ci : Nat),
      (∀ k, k < l.length → B < diffAt l q k) →
      fullScanAux q l B bi ci = bi := by
  induction l with
  | nil => intro B bi ci _; rfl
  | cons p rest ih =>
      intro B bi ci h
      have h0 : B < absQ (p.1 - q) := by
        have hh := h 0 (by simp)
        rwa [diffAt_cons_zero] at hh
      have hstep : fullScanAux q (p :: rest) B bi ci
          = fullScanAux q rest B bi (ci + 1) := by
        simp [fullScanAux, not_le.mpr h0]
      rw [hstep]
      exact ih B bi (ci + 1) (fun k hk => by
        have hh := h (k + 1) (by simpa using Nat.succ_lt_succ hk)
        rwa [diffAt_cons_succ] at hh)

/-- On a valley-shaped difference sequence the full scan lands on the stop
index of the early-stop scan. -/
lemma fullScanAux_run (q : ℚ) (l : List (ℚ × ℚ)) :
    ∀ (B : ℚ) (bi ci : Nat) (j : Nat),
      j < l.length →
      diffAt l q 0 ≤ B →
      (∀ k, k < j → diffAt l q (k + 1) ≤ diffAt l q k) →
      (∀ k, j < k → k < l.length → diffAt l q j < diffAt l q k) →
      fullScanAux q l B bi ci = ci + j := by
  induction l with
  | nil => intro B bi ci j hj; simp at hj
  | cons p rest ih =>
      intro B bi ci j hj h0 hchain hafter
      have hd : absQ (p.1 - q) ≤ B := by
        rwa [diffAt_cons_zero] at h0
      have hstep : fullScanAux q (p :: rest) B bi ci
          = fullScanAux q rest (absQ (p.1 - q)) ci (ci + 1) := by
        simp [fullScanAux, hd]
      rw [hstep]
      cases j with
      | zero =>
          have hall : ∀ k, k < rest.length → absQ (p.1 - q) < diffAt rest q k := by
            intro k hk
            have hh := hafter (k + 1) (Nat.succ_pos k) (by simpa using Nat.succ_lt_succ hk)
            rwa [diffAt_cons_zero, diffAt_cons_succ] at hh
          rw [fullScanAux_const q rest (absQ (p.1 - q)) ci (ci + 1) hall]
          omega
      | succ jp =>
          have hres := ih (absQ (p.1 - q)) ci (ci + 1) jp (by simpa using hj)
            (by
              have hh := hchain 0 (Nat.succ_pos jp)
              rwa [diffAt_cons_succ, diffAt_cons_zero] at hh)
            (fun k hk => by
              have hh := hchain (k + 1) (by omega)
              rwa [diffAt_cons_succ, diffAt_cons_succ] at hh)
            (fun k hjk hk => by
              have hh := hafter (k + 1) (by omega) (by simpa using Nat.succ_lt_succ hk)
              rwa [diffAt_cons_succ, diffAt_cons_succ] at hh)
          rw [hres]
          omega

/-- Main scan lemma: on a non-empty strictly increasing trace whose first
difference is within the sentinel, the early-stop scan lands inside the trace,
attains the minimal difference, is strictly below every later difference, and
agrees with the full linear scan. -/
lemma findNearest_main (trace : List (ℚ × ℚ)) (q : ℚ) (hne : trace ≠ [])
    (hmono : ∀ i, i < trace.length → ∀ j, j < trace.length → i < j →
      (trace.getD i (0, 0)).1 < (trace.getD j (0, 0)).1)
    (hfirst : diffAt trace q 0 ≤ 9999999999999) :
    findNearestIndex trace q < trace.length ∧
    (∀ k, k < trace.length → diffAt trace q (findNearestIndex trace q) ≤ diffAt trace q k) ∧
    (∀ k, findNearestIndex trace q < k → k < trace.length →
      diffAt trace q (findNearestIndex trace q) < diffAt trace q k) ∧
    fullScanIndex trace q = findNearestIndex trace q := by
  rcases findNearestAux_spec q trace 9999999999999 0 0 with ⟨hres, hstop⟩ | ⟨j, hj, hres, h0, hchain, hstopj⟩
  · rcases hstop with he | hlt
    · exact absurd he hne
    · linarith
  · have hrj : findNearestIndex trace q = j := by
      unfold findNearestIndex
      rw [hres]
      omega
    have hafter : ∀ k, j < k → k < trace.length → diffAt trace q j < diffAt trace q k := by
      intro k hjk hk
      have hj1 : j + 1 < trace.length := by omega
      exact valley trace q hmono j hj1 (hstopj hj1) k hjk hk
    have hmin : ∀ k, k < trace.length → diffAt trace q j ≤ diffAt trace q k := by
      intro k hk
      rcases le_or_lt k j with h | h
      · exact descend (diffAt trace q) j hchain k h
      · exact le_of_lt (hafter k h hk)
    have hfull : fullScanIndex trace q = j := by
      unfold fullScanIndex
      rw [fullScanAux_run q trace 9999999999999 0 0 j hj h0 hchain hafter]
      omega
    rw [hrj]
    exact ⟨hj, hmin, hafter, hfull⟩

/-- The accumulating loop of getAverageFuelUsage computes exactly the sum and
count of the spec-side positive consecutive decreases. -/
lemma fuelUsageTotals_four (a b c d : ℚ) :
    fuelUsageTotals [a, b, c, d]
      = ((posDecreases a b c d).sum, (posDecreases a b c d).length) := by
  unfold fuelUsageTotals posDecreases
  by_cases c1 : a - b > 0 <;> by_cases c2 : b - c > 0 <;> by_cases c3 : c - d > 0 <;>
    simp [List.foldl, List.filter, c1, c2, c3, not_lt.mp, List.getD]

/-- A nonzero accumulated total forces a positive total and at least one
contributing lap (the divisor). -/
lemma fuelTotals_pos_of_ne_zero (h : List ℚ) (hne : (fuelUsageTotals h).1 ≠ 0) :
    0 < (fuelUsageTotals h).1 ∧ 1 ≤ (fuelUsageTotals h).2 := by
  have key : (fuelUsageTotals h).1 = 0 ∧ (fuelUsageTotals h).2 = 0 ∨
      (0 < (fuelUsageTotals h).1 ∧ 1 ≤ (fuelUsageTotals h).2) := by
    unfold fuelUsageTotals
    simp only [List.foldl]
    split_ifs with h1 h2 h3 h2 h3 h3 <;> simp_all <;> linarith
  rcases key with ⟨h0, _⟩ | hk
  · exact absurd h0 hne
  · exact hk

/-- The lap-90 / lap-88 / lap-95 run evaluates to: best lap 88 and the 88 s
lap's two-point trace retained after the slower 95 s lap. -/
lemma intervalRun_eq :
    intervalRun
      = { bestLap := some 88, currentLap := 4, syncLap := 1, distanceFactor := 500,
          bestLapPoints := [(0, 1/2), (100, 40)], currentLapPoints := [(0, 1/10)] } := by
  have h0 : IntervalState.reset.update (lapReading 0 5 50 0)
      = { bestLap := none, currentLap := -2, syncLap := 1, distanceFactor := 0,
          bestLapPoints := [], currentLapPoints := [] } := by
    norm_num [IntervalState.update, IntervalState.reset, lapReading]
  have h1 : IntervalState.update
      { bestLap := none, currentLap := -2, syncLap := 1, distanceFactor := 0,
        bestLapPoints := [], currentLapPoints := [] } (lapReading 1 (3/10) 100 0)
      = { bestLap := none, currentLap := 1, syncLap := 1, distanceFactor := 100,
          bestLapPoints := [], currentLapPoints := [(0, 3/10)] } := by
    norm_num [IntervalState.update, lapReading, insertPoint]
  have h2 : IntervalState.update
      { bestLap := none, currentLap := 1, syncLap := 1, distanceFactor := 100,
        bestLapPoints := [], currentLapPoints := [(0, 3/10)] } (lapReading 1 10 150 0)
      = { bestLap := none, currentLap := 1, syncLap := 1, distanceFactor := 100,
          bestLapPoints := [], currentLapPoints := [(0, 3/10), (50, 10)] } := by
    norm_num [IntervalState.update, lapReading, insertPoint]
  have h3 : IntervalState.update
      { bestLap := none, currentLap := 1, syncLap := 1, distanceFactor := 100,
        bestLapPoints := [], currentLapPoints := [(0, 3/10), (50, 10)] }
      (lapReading 2 (1/2) 200 90)
      = { bestLap := some 90, currentLap := 2, syncLap := 1, distanceFactor := 200,
          bestLapPoints := [(0, 3/10), (50, 10)], currentLapPoints := [(0, 1/2)] } := by
    norm_num [IntervalState.update, lapReading, insertPoint, isNewBest]
  have h4 : IntervalState.update
      { bestLap := some 90, currentLap := 2, syncLap := 1, distanceFactor := 200,
        bestLapPoints := [(0, 3/10), (50, 10)], currentLapPoints := [(0, 1/2)] }
      (lapReading 2 40 300 90)
      = witnessState := by
    norm_num [IntervalState.update, lapReading, insertPoint, witnessState]
  have h5 : IntervalState.update witnessState (lapReading 3 (1/5) 400 88)
      = { bestLap := some 88, currentLap := 3, syncLap := 1, distanceFactor := 400,
          bestLapPoints := [(0, 1/2), (100, 40)], currentLapPoints := [(0, 1/5)] } := by
    norm_num [IntervalState.update, lapReading, insertPoint, isNewBest, witnessState]
  have h6 : IntervalState.update
      { bestLap := some 88, currentLap := 3, syncLap := 1, distanceFactor := 400,
        bestLapPoints := [(0, 1/2), (100, 40)], currentLapPoints := [(0, 1/5)] }
      (lapReading 4 (1/10) 500 95)
      = { bestLap := some 88, currentLap := 4, syncLap := 1, distanceFactor := 500,
          bestLapPoints := [(0, 1/2), (100, 40)], currentLapPoints := [(0, 1/10)] } := by
    norm_num [IntervalState.update, lapReading, insertPoint, isNewBest]
  rw [intervalRun, h0, h1, h2, h3, h4, h5, h6]

/-- The fuel scenario evaluates to usage 10 (fuel percent per lap) and laps
left 7, with the mixed-unit history [1, 90, 80, 70]. -/
lemma fuelRun_eq :
    fuelRun
      = { state := { fuelLevelHistory := some [1, 90, 80, 70], lastLap := 3 },
          usage := 10, lapsLeft := some 7 } := by
  have h1 : (FuelState.update FuelState.reset (fuelReading 0 1)).state
      = { fuelLevelHistory := some [1, 1, 1, 1], lastLap := 0 } := by
    norm_num [FuelState.update, FuelState.reset, fuelReading, List.replicate]
  have h2 : (FuelState.update { fuelLevelHistory := some [1, 1, 1, 1], lastLap := 0 }
      (fuelReading 1 (9/10))).state
      = { fuelLevelHistory := some [1, 1, 1, 90], lastLap := 1 } := by
    norm_num [FuelState.update, fuelReading, pyInt, getAverageFuelUsage, fuelUsageTotals]
  have h3 : (FuelState.update { fuelLevelHistory := some [1, 1, 1, 90], lastLap := 1 }
      (fuelReading 2 (8/10))).state
      = { fuelLevelHistory := some [1, 1, 90, 80], lastLap := 2 } := by
    norm_num [FuelState.update, fuelReading, pyInt, getAverageFuelUsage, fuelUsageTotals]
  have h4 : FuelState.update { fuelLevelHistory := some [1, 1, 90, 80], lastLap := 2 }
      (fuelReading 3 (7/10))
      = { state := { fuelLevelHistory := some [1, 90, 80, 70], lastLap := 3 },
          usage := 10, lapsLeft := some 7 } := by
    norm_num [FuelState.update, fuelReading, pyInt, getAverageFuelUsage, fuelUsageTotals]
  rw [fuelRun, h1, h2, h3, h4]

/-! ## Claim theorems -/

/-- Claim C1: the spec says inserting a point whose distance is less or equal
to the last stored distance, or negative, is a no-op, and that the stored
distances stay strictly increasing.  The source appends any negative-distance
point (its docstring notwithstanding): after inserting (-1, 2) and then
(-2, 3) on top of [(5, 1)] the stored distances are [5, -1, -2]. -/
theorem insertPoint_negative_appended :
    insertPoint [(5, 1)] (-1, 2) = [(5, 1), (-1, 2)] ∧
    insertPoint (insertPoint [(5, 1)] (-1, 2)) (-2, 3) = [(5, 1), (-1, 2), (-2, 3)] := by
  constructor <;> norm_num [insertPoint]

/-- Claim C2: on the best trace [(0,0), (100,10), (200,20)] the computed delta
at (100, 9) is -1 and at (100, 11) is +1; in general the delta is the current
point's lap time minus the matched best point's lap time, and the displayed
sign character is "-" exactly when the delta is negative and "+" otherwise,
including at exactly zero. -/
theorem interval_sign_convention :
    updateInterval testTrace (100, 9) = some (-1) ∧
    updateInterval testTrace (100, 11) = some 1 ∧
    (∀ bestLapPoints : List (ℚ × ℚ), ∀ currentPoint : ℚ × ℚ, bestLapPoints ≠ [] →
      updateInterval bestLapPoints currentPoint
        = some (currentPoint.2 -
            (bestLapPoints.getD (findNearestIndex bestLapPoints currentPoint.1) (0, 0)).2)) ∧
    (∀ delta : ℚ, (intervalSign delta = '-' ↔ delta < 0) ∧
      (intervalSign delta = '+' ↔ 0 ≤ delta)) := by
  refine ⟨?_, ?_, ?_, ?_⟩
  · norm_num [updateInterval, findNearestIndex, findNearestAux, absQ, testTrace]
    exact fun h => absurd h (by simp)
  · norm_num [updateInterval, findNearestIndex, findNearestAux, absQ, testTrace]
    exact fun h => absurd h (by simp)
  · intro bl pt h
    unfold updateInterval
    rw [if_neg h]
  · intro d
    unfold intervalSign
    constructor
    · split_ifs with h
      · exact iff_of_true rfl h
      · exact iff_of_false (by decide) h
    · split_ifs with h
      · exact iff_of_false (by decide) (not_le.mpr h)
      · exact iff_of_true rfl (not_lt.mp h)

/-- Witness for claim C2: the general delta formula applied to the one-point
best trace [(5, 7)] at current point (3, 4). -/
theorem interval_sign_convention_witness :
    updateInterval [((5:ℚ), (7:ℚ))] ((3:ℚ), (4:ℚ))
      = some (((3:ℚ), (4:ℚ)).2 -
          ([((5:ℚ), (7:ℚ))].getD
            (findNearestIndex [((5:ℚ), (7:ℚ))] ((3:ℚ), (4:ℚ)).1) (0, 0)).2) :=
  interval_sign_convention.2.2.1 [((5:ℚ), (7:ℚ))] ((3:ℚ), (4:ℚ)) (by simp)

/-- Claim C3 counterexample: on the trace [(0,0), (2,5)] with query distance 1
both points are at absolute difference 1, yet the scan selects index 1, not
the leftmost index 0 — the comparison uses less-or-equal, so a tying point
replaces the candidate. -/
theorem scan_tiebreak_counterexample :
    findNearestIndex [((0:ℚ), (0:ℚ)), ((2:ℚ), (5:ℚ))] 1 = 1 ∧
    absQ ((0:ℚ) - 1) = absQ ((2:ℚ) - 1) := by
  constructor
  · norm_num [findNearestIndex, findNearestAux, absQ]
  · norm_num [absQ]

/-- Claim C3 (amended): for every non-empty best trace with strictly
increasing distances whose first absolute difference is within the sentinel
9999999999999, the scan lands inside the trace, attains the minimal absolute
difference, and among points attaining it selects the LAST one reached during
the scan: any index with an equal difference is at most the returned index. -/
theorem scan_tiebreak_rightmost (trace : List (ℚ × ℚ)) (q : ℚ) (hne : trace ≠ [])
    (hmono : ∀ i, i < trace.length → ∀ j, j < trace.length → i < j →
      (trace.getD i (0, 0)).1 < (trace.getD j (0, 0)).1)
    (hfirst : diffAt trace q 0 ≤ 9999999999999) :
    findNearestIndex trace q < trace.length ∧
    (∀ k, k < trace.length → diffAt trace q (findNearestIndex trace q) ≤ diffAt trace q k) ∧
    (∀ k, k < trace.length → diffAt trace q k = diffAt trace q (findNearestIndex trace q) →
      k ≤ findNearestIndex trace q) := by
  obtain ⟨h1, h2, h3, _⟩ := findNearest_main trace q hne hmono hfirst
  refine ⟨h1, h2, ?_⟩
  intro k hk he
  by_contra hgt
  push_neg at hgt
  have hlt := h3 k hgt hk
  linarith

/-- Witness for claim C3 (amended), instantiated on the spec's example trace
with query distance 100. -/
theorem scan_tiebreak_rightmost_witness :
    findNearestIndex testTrace 100 < testTrace.length ∧
    (∀ k, k < testTrace.length →
      diffAt testTrace 100 (findNearestIndex testTrace 100) ≤ diffAt testTrace 100 k) ∧
    (∀ k, k < testTrace.length →
      diffAt testTrace 100 k = diffAt testTrace 100 (findNearestIndex testTrace 100) →
      k ≤ findNearestIndex testTrace 100) :=
  scan_tiebreak_rightmost testTrace 100 (by simp [testTrace]) (by decide)
    (by norm_num [diffAt, testTrace, absQ])

/-- Claim C4 counterexample: on the strictly increasing trace
[(0,0), (20000000000000,5)] with query distance 20000000000000 the first
point's difference exceeds the initial bestDifference sentinel, so the loop
breaks immediately and returns index 0, although index 1 has difference 0 —
the early-stop scan does not attain the global minimum on every input. -/
theorem scan_earlystop_counterexample :
    findNearestIndex [((0:ℚ), (0:ℚ)), ((20000000000000:ℚ), (5:ℚ))] 20000000000000 = 0 ∧
    diffAt [((0:ℚ), (0:ℚ)), ((20000000000000:ℚ), (5:ℚ))] 20000000000000 1 <
      diffAt [((0:ℚ), (0:ℚ)), ((20000000000000:ℚ), (5:ℚ))] 20000000000000 0 ∧
    ((0:ℚ) < 20000000000000) := by
  refine ⟨?_, ?_, by norm_num⟩
  · norm_num [findNearestIndex, findNearestAux, absQ]
  · norm_num [diffAt, absQ]

/-- Claim C4 (amended): for every non-empty best trace with strictly
increasing distances and every query whose first absolute difference is within
the sentinel 9999999999999, the early-stop scan returns an in-range index
attaining the global minimum absolute difference over the whole trace, and it
returns exactly the index the full linear scan computes. -/
theorem scan_equiv_full_scan (trace : List (ℚ × ℚ)) (q : ℚ) (hne : trace ≠ [])
    (hmono : ∀ i, i < trace.length → ∀ j, j < trace.length → i < j →
      (trace.getD i (0, 0)).1 < (trace.getD j (0, 0)).1)
    (hfirst : diffAt trace q 0 ≤ 9999999999999) :
    findNearestIndex trace q < trace.length ∧
    (∀ k, k < trace.length → diffAt trace q (findNearestIndex trace q) ≤ diffAt trace q k) ∧
    fullScanIndex trace q = findNearestIndex trace q := by
  obtain ⟨h1, h2, _, h4⟩ := findNearest_main trace q hne hmono hfirst
  exact ⟨h1, h2, h4⟩

/-- Witness for claim C4 (amended), instantiated on the spec's example trace
with query distance 100. -/
theorem scan_equiv_full_scan_witness :
    findNearestIndex testTrace 100 < testTrace.length ∧
    (∀ k, k < testTrace.length →
      diffAt testTrace 100 (findNearestIndex testTrace 100) ≤ diffAt testTrace 100 k) ∧
    fullScanIndex testTrace 100 = findNearestIndex testTrace 100 :=
  scan_equiv_full_scan testTrace 100 (by simp [testTrace]) (by decide)
    (by norm_num [diffAt, testTrace, absQ])

/-- Claim C5: on a normal new-lap transition the best trace and best lap are
replaced by the current trace and last lap time exactly when bestLap is unset,
nonpositive, or beaten; and in the 90 s / 88 s / 95 s run the retained best is
the 88 s lap's trace with bestLap 88, not replaced by the 95 s lap. -/
theorem best_lap_replacement (s : IntervalState) (fdp : Reading)
    (h1 : fdp.lap_no = s.currentLap + 1) (h2 : ¬ fdp.cur_lap_time > 1) :
    ((s.update fdp).bestLap, (s.update fdp).bestLapPoints)
      = (if isNewBest s.bestLap fdp.last_lap_time then
          (some fdp.last_lap_time, s.currentLapPoints)
         else (s.bestLap, s.bestLapPoints)) ∧
    (isNewBest s.bestLap fdp.last_lap_time = true ↔
      (s.bestLap = none ∨ ∃ b, s.bestLap = some b ∧ (b ≤ 0 ∨ fdp.last_lap_time < b))) ∧
    intervalRun.bestLap = some 88 ∧
    intervalRun.bestLapPoints = [(0, 1/2), (100, 40)] := by
  have hne1 : fdp.lap_no ≠ s.currentLap := by omega
  refine ⟨?_, ?_, ?_, ?_⟩
  · simp only [IntervalState.update]
    rw [if_neg hne1, if_pos h1, if_neg h2]
    by_cases hb : isNewBest s.bestLap fdp.last_lap_time
    · simp [hb]
    · simp [hb]
  · cases hbl : s.bestLap with
    | none => simp [isNewBest]
    | some b => simp [isNewBest]
  · rw [intervalRun_eq]
  · rw [intervalRun_eq]

/-- Witness for claim C5: the new-lap transition out of the mid-run state
(best 90, last lap time 88). -/
theorem best_lap_replacement_witness :
    (((witnessState.update (lapReading 3 0 400 88)).bestLap,
      (witnessState.update (lapReading 3 0 400 88)).bestLapPoints)
      = (if isNewBest witnessState.bestLap (lapReading 3 0 400 88).last_lap_time then
          (some (lapReading 3 0 400 88).last_lap_time, witnessState.currentLapPoints)
         else (witnessState.bestLap, witnessState.bestLapPoints))) ∧
    (isNewBest witnessState.bestLap (lapReading 3 0 400 88).last_lap_time = true ↔
      (witnessState.bestLap = none ∨ ∃ b, witnessState.bestLap = some b ∧
        (b ≤ 0 ∨ (lapReading 3 0 400 88).last_lap_time < b))) ∧
    intervalRun.bestLap = some 88 ∧
    intervalRun.bestLapPoints = [(0, 1/2), (100, 40)] :=
  best_lap_replacement witnessState (lapReading 3 0 400 88) (by decide) (by norm_num [lapReading])

/-- Claim C6: on a reading whose lap number is inconsistent with currentLap,
reaching the awaited sync lap sets currentLap to syncLap, resets the distance
factor to the traveled distance and restarts recording with the fresh point;
otherwise only syncLap is set to the observed lap number plus one, and
currentLap, distanceFactor and both traces are untouched. -/
theorem resync_invariant (s : IntervalState) (fdp : Reading)
    (h1 : fdp.lap_no ≠ s.currentLap) (h2 : fdp.lap_no ≠ s.currentLap + 1) :
    (fdp.lap_no = s.syncLap →
      s.update fdp = { s with currentLap := s.syncLap,
                              distanceFactor := fdp.dist_traveled,
                              currentLapPoints := [(0, fdp.cur_lap_time)] }) ∧
    (fdp.lap_no ≠ s.syncLap →
      s.update fdp = { s with syncLap := fdp.lap_no + 1 }) := by
  constructor
  · intro h3
    simp only [IntervalState.update]
    rw [if_neg h1, if_neg h2, if_pos h3]
    simp [insertPoint, sub_self]
  · intro h3
    simp only [IntervalState.update]
    rw [if_neg h1, if_neg h2, if_neg h3]

/-- Witness for claim C6: lap 7 observed while the mid-run state expects lap 2
or 3 and awaits sync lap 1 — only syncLap moves, to 8. -/
theorem resync_invariant_witness :
    ((lapReading 7 0 500 0).lap_no = witnessState.syncLap →
      witnessState.update (lapReading 7 0 500 0)
        = { witnessState with currentLap := witnessState.syncLap,
                              distanceFactor := (lapReading 7 0 500 0).dist_traveled,
                              currentLapPoints := [(0, (lapReading 7 0 500 0).cur_lap_time)] }) ∧
    ((lapReading 7 0 500 0).lap_no ≠ witnessState.syncLap →
      witnessState.update (lapReading 7 0 500 0)
        = { witnessState with syncLap := (lapReading 7 0 500 0).lap_no + 1 }) :=
  resync_invariant witnessState (lapReading 7 0 500 0) (by decide) (by decide)

/-- Claim C7: a lap-boundary reading with currentLapTime above one second is
treated as a gap: currentLap is reset to -1, syncLap becomes the observed lap
plus one, the distance factor is not advanced, and the current trace is
cleared. -/
theorem gap_guard (s : IntervalState) (fdp : Reading)
    (h1 : fdp.lap_no = s.currentLap + 1) (h2 : fdp.cur_lap_time > 1) :
    (s.update fdp).currentLap = -1 ∧
    (s.update fdp).syncLap = fdp.lap_no + 1 ∧
    (s.update fdp).distanceFactor = s.distanceFactor ∧
    (s.update fdp).currentLapPoints = [] := by
  have hne1 : fdp.lap_no ≠ s.currentLap := by omega
  simp only [IntervalState.update]
  rw [if_neg hne1, if_pos h1, if_pos h2]
  exact ⟨rfl, rfl, rfl, rfl⟩

/-- Witness for claim C7: crossing from lap 2 to lap 3 with 2 s already on the
new lap's clock. -/
theorem gap_guard_witness :
    (witnessState.update (lapReading 3 2 400 88)).currentLap = -1 ∧
    (witnessState.update (lapReading 3 2 400 88)).syncLap = (lapReading 3 2 400 88).lap_no + 1 ∧
    (witnessState.update (lapReading 3 2 400 88)).distanceFactor = witnessState.distanceFactor ∧
    (witnessState.update (lapReading 3 2 400 88)).currentLapPoints = [] :=
  gap_guard witnessState (lapReading 3 2 400 88) (by decide) (by decide)

/-- Claim C8 counterexample: in the spec's fuel scenario (prime at 1.00, then
lap transitions at 0.90, 0.80, 0.70) the computed average usage is 10, not the
claimed 0.10 — later history entries are stored as percentages via
int(fuel * 10000) / 100 while the primed entries stay raw fractions. -/
theorem fuel_projection_counterexample :
    fuelRun.usage = 10 ∧ fuelRun.usage ≠ 1/10 ∧ fuelRun.lapsLeft = some 7 := by
  rw [fuelRun_eq]
  norm_num

/-- Claim C8 (amended): the scenario yields usage 10 (fuel percent per lap,
0.10 as a fraction) and laps left (0.70 / 10) * 100 = 7; the average counts
exactly the positive consecutive decreases (increases are excluded, not
negated), and whenever the computed usage is zero the laps-left value is not
updated. -/
theorem fuel_projection_amended :
    fuelRun.usage = 10 ∧ fuelRun.lapsLeft = some 7 ∧
    (∀ a b c d : ℚ, getAverageFuelUsage [a, b, c, d] = avgSpec a b c d) ∧
    (∀ s : FuelState, ∀ fdp : Reading, (FuelState.update s fdp).usage = 0 →
      (FuelState.update s fdp).lapsLeft = none) := by
  refine ⟨by rw [fuelRun_eq], by rw [fuelRun_eq], ?_, ?_⟩
  · intro a b c d
    unfold getAverageFuelUsage avgSpec
    rw [fuelUsageTotals_four]
    by_cases hnil : posDecreases a b c d = []
    · simp [hnil]
    · rw [if_neg hnil]
      have hpos : 0 < (posDecreases a b c d).sum := by
        have hmem : ∀ x ∈ posDecreases a b c d, 0 < x := by
          intro x hx
          unfold posDecreases at hx
          simp only [List.mem_filter] at hx
          exact of_decide_eq_true hx.2
        rcases List.exists_mem_of_ne_nil _ hnil with ⟨y, hy⟩
        calc (0:ℚ) < y := hmem y hy
          _ ≤ (posDecreases a b c d).sum :=
            List.single_le_sum (fun x hx => le_of_lt (hmem x hx)) y hy
      rw [if_neg (by positivity)]
  · intro s fdp h0
    unfold FuelState.update at h0 ⊢
    by_cases hl : fdp.lap_no ≠ s.lastLap
    · rw [if_pos hl] at h0 ⊢
      simp only at h0 ⊢
      rw [h0]
      simp
    · rw [if_neg hl] at h0 ⊢
      simp only at h0 ⊢
      rw [h0]
      simp

/-- Witness for claim C8 (amended): priming the history reports zero usage and
leaves laps-left not updated. -/
theorem fuel_projection_amended_witness :
    (FuelState.update FuelState.reset (fuelReading 0 1)).lapsLeft = none :=
  fuel_projection_amended.2.2.2 FuelState.reset (fuelReading 0 1)
    (by norm_num [FuelState.update, FuelState.reset, fuelReading, getAverageFuelUsage,
          fuelUsageTotals, List.replicate])

/-- Claim C9: a packet whose decoded isRaceOn flag is zero mutates no
analytics state and emits no widget update, while the race-state notification
is emitted on every packet with the decoded flag's truth value. -/
theorem race_off_suppression (st : DashboardState) (fdp : Reading) :
    (fdp.is_race_on = 0 →
      (onCollected st fdp).state = st ∧ (onCollected st fdp).updateEmitted = false) ∧
    (onCollected st fdp).isRacingEmitted = some (decide (fdp.is_race_on ≠ 0)) := by
  unfold onCollected
  by_cases h : fdp.is_race_on = 0
  · rw [if_pos h]
    exact ⟨fun _ => ⟨rfl, rfl⟩, rfl⟩
  · rw [if_neg h]
    exact ⟨fun hh => absurd hh h, rfl⟩

/-- Witness for claim C9: a race-off reading leaves the freshly reset
dashboard state untouched and emits no update. -/
theorem race_off_suppression_witness :
    (onCollected { interval := IntervalState.reset, fuelW := FuelState.reset } offReading).state
      = { interval := IntervalState.reset, fuelW := FuelState.reset } ∧
    (onCollected { interval := IntervalState.reset, fuelW := FuelState.reset }
      offReading).updateEmitted = false :=
  (race_off_suppression { interval := IntervalState.reset, fuelW := FuelState.reset }
    offReading).1 rfl

/-- Claim C10: getAverageFuelUsage is total — it returns 0 when the
accumulated sum of positive decreases is zero, and otherwise the divisor (the
count of positive decreases) is at least 1, so the division-by-zero branch is
unreachable. -/
theorem fuel_average_total (h : List ℚ) :
    ((fuelUsageTotals h).1 = 0 → getAverageFuelUsage h = 0) ∧
    ((fuelUsageTotals h).1 ≠ 0 →
      0 < (fuelUsageTotals h).1 ∧ 1 ≤ (fuelUsageTotals h).2) := by
  constructor
  · intro h0
    unfold getAverageFuelUsage
    rw [if_pos h0]
  · exact fuelTotals_pos_of_ne_zero h

/-- Witness for claim C10: a constant history has zero usage; a history with
one decrease has a positive total and divisor 1. -/
theorem fuel_average_total_witness :
    getAverageFuelUsage [(1:ℚ), 1, 1, 1] = 0 ∧
    (0 < (fuelUsageTotals [(4:ℚ), 3, 3, 3]).1 ∧ 1 ≤ (fuelUsageTotals [(4:ℚ), 3, 3, 3]).2) :=
  ⟨(fuel_average_total [(1:ℚ), 1, 1, 1]).1 (by norm_num [fuelUsageTotals]),
   (fuel_average_total [(4:ℚ), 3, 3, 3]).2 (by norm_num [fuelUsageTotals])⟩

end ForzaPiDash
